import Mathlib

/-!
Shallow embedding of the offset cooperative scheduler core
(src/offset/core/kernel.py) and of the kqueue readiness poller
(src/offset/net/fd_bsd.py).

Tasks are identified by natural numbers.  The two mutable task attributes
that kernel.py reads and writes (the is_alive predicate and the sleeping
flag) are carried as functions from task id to Bool inside the scheduler
state, since the task objects themselves live in proc.py, which only
presents them to kernel.py through these two predicates.  Futures of the
worker pool are identified by natural numbers as well; the sleeping table
(a Python dict from future to task) is an association list.
-/

namespace Offset

/-- Pointwise update of a boolean attribute map; models the mutation of
one attribute of one Python object. -/
def fupd (f : Nat → Bool) (x : Nat) (b : Bool) : Nat → Bool :=
  fun y => if y = x then b else f y

/-- Association-list lookup, modelling Python dict access by key. -/
def alookup {α : Type} : List (Nat × α) → Nat → Option α
  | [], _ => none
  | (k, v) :: rest, f => if k = f then some v else alookup rest f

/-- Association-list removal of the entry carrying the given key,
modelling dict.pop. -/
def aerase {α : Type} : List (Nat × α) → Nat → List (Nat × α)
  | [], _ => []
  | (k, v) :: rest, f => if k = f then rest else (k, v) :: aerase rest f

/-- Task ids stored in the sleeping table (the values of the dict). -/
def taskIds (tbl : List (Nat × Nat)) : List Nat := tbl.map Prod.snd

/-- Scheduler state of class Kernel (kernel.py).  runq is the deque,
sleeping the future-to-task dict, runCalls the _run_calls list with its
top held first (Python appends and pops at the right end of the list;
only push and pop order matters here), sigqueue the class attribute
SIGQUEUE, lastTask the _last_task attribute.  sleepFlag and alive carry
the task attributes g.sleeping and g.is_alive(). -/
structure KState where
  runq : List Nat
  sleeping : List (Nat × Nat)
  runCalls : List Nat
  sigqueue : List Nat
  sleepFlag : Nat → Bool
  alive : Nat → Bool
  lastTask : Nat

/-- Kernel.signal_recv (kernel.py lines 70-72): append the signal to the
class-level SIGQUEUE only while it holds fewer than 5 entries; drop it
otherwise. -/
def signal_recv (q : List Nat) (sig : Nat) : List Nat :=
  if q.length < 5 then q ++ [sig] else q

/-- Kernel.newproc (kernel.py lines 74-81) together with the Proc
construction it performs.  Modelled from the spec: proc.py is not under
src/, and the spec states that a spawned Task starts Runnable (sleeping
flag clear), alive, and is appended at the run-queue tail. -/
def newproc (s : KState) (g : Nat) : KState :=
  { s with runq := s.runq ++ [g],
           sleepFlag := fupd s.sleepFlag g false,
           alive := fupd s.alive g true }

/-- Kernel.park (kernel.py lines 92-100), state part: set the sleeping
flag of g and remove g from the run queue if present (the ValueError of
deque.remove is swallowed; List.erase likewise leaves an absent element
alone).  The trailing self.schedule() call is the scheduling loop,
embedded separately as scheduleIter. -/
def park (s : KState) (g : Nat) : KState :=
  { s with sleepFlag := fupd s.sleepFlag g true,
           runq := s.runq.erase g }

/-- The failure raised by Kernel.ready.  Modelled from the spec where
exc.py is concerned: KernelError is a protocol-violation failure
class. -/
inductive KernelError where
  | badStatus
  deriving DecidableEq

/-- Kernel.ready (kernel.py lines 102-108): raise KernelError when the
task is not sleeping, otherwise clear the flag and append the task at
the run-queue tail.  The second component carries the raised failure;
the first carries the state as the caller observes it afterwards. -/
def ready (s : KState) (g : Nat) : KState × Option KernelError :=
  if s.sleepFlag g = false then (s, some KernelError.badStatus)
  else ({ s with sleepFlag := fupd s.sleepFlag g false,
                 runq := s.runq ++ [g] }, none)

/-- Kernel.enter_syscall (kernel.py lines 154-164), state part up to and
including the park call: mark the current task g sleeping, record future
f in the sleeping table, then park g (which removes g from the run
queue).  The outcome of the submitted function is embedded by Fut
below. -/
def enter_syscall_submit (s : KState) (g f : Nat) : KState :=
  park { s with sleepFlag := fupd s.sleepFlag g true,
                sleeping := s.sleeping ++ [(f, g)] } g

/-- Outcome of the worker-pool execution of an offloaded function. -/
inductive FutOutcome (ε α : Type) where
  | raised (e : ε)
  | returned (v : α)

/-- View of a concurrent.futures.Future held by enter_syscall once the
worker finished.  Models the stdlib Future API: exception() gives the
raised failure or None, result() re-raises that failure or gives the
value. -/
structure Fut (ε α : Type) where
  exception : Option ε
  result : Except ε α

/-- The Future observed for each worker outcome (stdlib semantics). -/
def futOf {ε α : Type} : FutOutcome ε α → Fut ε α
  | .raised e => ⟨some e, .error e⟩
  | .returned v => ⟨none, .ok v⟩

/-- Kernel.enter_syscall (kernel.py lines 166-168), resume part: after
the scheduler re-admits the task, re-raise the exception of the future
if there is one, otherwise return the result of the future. -/
def enter_syscall_resume {ε α : Type} (f : Fut ε α) : Except ε α :=
  match f.exception with
  | some e => Except.error e
  | none => f.result

/-- Kernel.exit_syscall (kernel.py lines 170-184): pop the task waiting
on future f from the sleeping table (a missing key is a KeyError,
modelled as none); drop the task if the future was cancelled or the task
is no longer alive; otherwise clear its sleeping flag and push it at the
run-queue head (appendleft). -/
def exit_syscall (s : KState) (f : Nat) (cancelled : Bool) : Option KState :=
  match alookup s.sleeping f with
  | none => none
  | some g =>
      let s1 := { s with sleeping := aerase s.sleeping f }
      if cancelled then some s1
      else if s.alive g = false then some s1
      else some { s1 with sleepFlag := fupd s1.sleepFlag g false,
                          runq := g :: s1.runq }

/-- Signal-number-to-name table Kernel.SIGNAMES, built in kernel.py from
the names the signal module exports, lowercased with SIG stripped; the
entries here are the standard POSIX numbers. -/
def SIGNAMES : List (Nat × String) :=
  [(1, "hup"), (2, "int"), (3, "quit"), (6, "abrt"), (9, "kill"),
   (10, "usr1"), (12, "usr2"), (13, "pipe"), (14, "alrm"), (15, "term")]

/-- The check of kernel.py lines 115-119: the drained signal is known to
SIGNAMES and its name lies in the quit, int, term tuple. -/
def termSig (sig : Nat) : Bool :=
  match alookup SIGNAMES sig with
  | some n => n = "quit" || n = "int" || n = "term"
  | none => false

/-- Whether the head of the signal queue, if any, would abort the
process in the next pass of the scheduling loop. -/
def noTermHead (q : List Nat) : Bool :=
  match q with
  | [] => true
  | sig :: _ => !termSig sig

/-- os.EX_IOERR, the exit status passed to os._exit in kernel.py line
120. -/
def EX_IOERR : Nat := 74

/-- Result of one pass of the while-loop body of Kernel.schedule
(kernel.py lines 113-148).  halt is the os._exit call; wait is the
futures.wait branch followed by continue; idle is the bare return; prune
is the popleft of a not-alive candidate followed by continue;
pruneUnderflow is the IndexError raised by popleft on an empty deque;
dispatch records the selected live candidate, set as _last_task and
switched into when it differs from the invoking task. -/
inductive IterResult where
  | halt (code : Nat)
  | wait (s : KState)
  | idle (s : KState)
  | prune (g : Nat) (s : KState)
  | pruneUnderflow
  | dispatch (g : Nat) (s : KState)

/-- Candidate-selection part of the schedule loop body (kernel.py lines
122-145), entered after the signal check: rotate the run queue when its
head is the invoking task, select the head; with an empty run queue wait
on outstanding futures, or pop a deferred re-entry, or return; prune a
not-alive candidate with runq.popleft(). -/
def schedSelect (s : KState) (gcur : Nat) : IterResult :=
  match s.runq with
  | g0 :: rest =>
      let rq := if g0 = gcur then rest ++ [g0] else g0 :: rest
      let gnext := rq.headD 0
      if s.alive gnext then
        IterResult.dispatch gnext { s with runq := rq, lastTask := gnext }
      else
        IterResult.prune gnext { s with runq := rq.tail }
  | [] =>
      if 0 < s.sleeping.length then IterResult.wait s
      else
        match s.runCalls with
        | gnext :: rcs =>
            if s.alive gnext then
              IterResult.dispatch gnext { s with runCalls := rcs, lastTask := gnext }
            else IterResult.pruneUnderflow
        | [] => IterResult.idle s

/-- One pass of the while-loop body of Kernel.schedule (kernel.py lines
113-148): pop at most one signal from SIGQUEUE; when it carries a name
in the quit, int, term tuple call os._exit(os.EX_IOERR); otherwise go on
to candidate selection. -/
def scheduleIter (s : KState) (gcur : Nat) : IterResult :=
  match s.sigqueue with
  | sig :: rest =>
      if termSig sig then IterResult.halt EX_IOERR
      else schedSelect { s with sigqueue := rest } gcur
  | [] => schedSelect s gcur

/-- The candidate gnext examined by a loop pass, if the pass reaches the
is_alive check. -/
def candidateOf : IterResult → Option Nat
  | .prune g _ => some g
  | .dispatch g _ => some g
  | _ => none

/-- The candidate a loop pass records as _last_task and switches into. -/
def dispatchedOf : IterResult → Option Nat
  | .dispatch g _ => some g
  | _ => none

/-- The scheduler state a loop pass leaves behind, when it leaves one
(halt never returns and pruneUnderflow dies with IndexError). -/
def stateOf : IterResult → Option KState
  | .wait s => some s
  | .idle s => some s
  | .prune _ s => some s
  | .dispatch _ s => some s
  | _ => none

/-- The run queue as it stands at the selection point runq[0] of
kernel.py line 126: rotated left by one when its head equals the task
that invoked the loop, untouched otherwise. -/
def rotateIfSelf (q : List Nat) (gcur : Nat) : List Nat :=
  match q with
  | [] => []
  | g0 :: rest => if g0 = gcur then rest ++ [g0] else g0 :: rest

/-- Kernel.run (kernel.py lines 150-152), state part: push the calling
task on _run_calls; the schedule call that follows is scheduleIter. -/
def runOp (s : KState) (g : Nat) : KState :=
  { s with runCalls := g :: s.runCalls }

/-- Death of a task.  Modelled from the spec: proc.py is not under src/,
and the spec states a Task becomes permanently not alive when its body
returns or raises uncaught, an event kernel.py does not control. -/
def dieOp (s : KState) (g : Nat) : KState :=
  { s with alive := fupd s.alive g false }

/-- Arrival of an OS signal routed into Kernel.signal_recv. -/
def sigRecvOp (s : KState) (sig : Nat) : KState :=
  { s with sigqueue := signal_recv s.sigqueue sig }

/-- State of Kernel right after __init__ (kernel.py lines 38-59): empty
run queue, sleeping table, _run_calls and SIGQUEUE; _last_task is the
main task, carrying id 0 here.  Modelled from the spec where proc.py is
concerned: initially only the main task exists and is alive. -/
def initState : KState :=
  { runq := [], sleeping := [], runCalls := [], sigqueue := [],
    sleepFlag := fun _ => false,
    alive := fun t => t == 0,
    lastTask := 0 }

/-- One state transition of the kernel through its public operations,
with exactly the guards the code itself enforces.  sNewproc carries the
freshness of a newly constructed task object; sEnter carries that the
invoking (hence running) task is not parked inside the sleeping table;
sRun carries that the invoking task is alive; sSched covers the state
effect of one pass of the scheduling loop; sDie is task death, an
external event of the task primitive. -/
inductive Step : KState → KState → Prop where
  | sNewproc (s : KState) (g : Nat) (h1 : g ∉ s.runq)
      (h2 : g ∉ taskIds s.sleeping) : Step s (newproc s g)
  | sPark (s : KState) (g : Nat) : Step s (park s g)
  | sReady (s : KState) (g : Nat) (h : s.sleepFlag g = true) :
      Step s (ready s g).1
  | sEnter (s : KState) (g f : Nat) (h : g ∉ taskIds s.sleeping) :
      Step s (enter_syscall_submit s g f)
  | sExit (s s' : KState) (f : Nat) (c : Bool)
      (h : exit_syscall s f c = some s') : Step s s'
  | sRun (s : KState) (g : Nat) (h : s.alive g = true) : Step s (runOp s g)
  | sDie (s : KState) (g : Nat) : Step s (dieOp s g)
  | sSig (s : KState) (n : Nat) : Step s (sigRecvOp s n)
  | sSched (s s' : KState) (g : Nat)
      (h : stateOf (scheduleIter s g) = some s') : Step s s'

/-- States reachable from the freshly constructed kernel through the
public operations. -/
inductive Reach : KState → Prop where
  | init : Reach initState
  | step {s s' : KState} (h : Reach s) (hs : Step s s') : Reach s'

/-- The transitions of Step, restricted by the wake discipline: ready is
never applied to a task held in the sleeping table, whose wake-up
belongs solely to the completion callback exit_syscall. -/
inductive DStep : KState → KState → Prop where
  | dNewproc (s : KState) (g : Nat) (h1 : g ∉ s.runq)
      (h2 : g ∉ taskIds s.sleeping) : DStep s (newproc s g)
  | dPark (s : KState) (g : Nat) : DStep s (park s g)
  | dReady (s : KState) (g : Nat) (h : s.sleepFlag g = true)
      (hd : g ∉ taskIds s.sleeping) : DStep s (ready s g).1
  | dEnter (s : KState) (g f : Nat) (h : g ∉ taskIds s.sleeping) :
      DStep s (enter_syscall_submit s g f)
  | dExit (s s' : KState) (f : Nat) (c : Bool)
      (h : exit_syscall s f c = some s') : DStep s s'
  | dRun (s : KState) (g : Nat) (h : s.alive g = true) : DStep s (runOp s g)
  | dDie (s : KState) (g : Nat) : DStep s (dieOp s g)
  | dSig (s : KState) (n : Nat) : DStep s (sigRecvOp s n)
  | dSched (s s' : KState) (g : Nat)
      (h : stateOf (scheduleIter s g) = some s') : DStep s s'

/-- States reachable under the wake discipline of DStep. -/
inductive ReachD : KState → Prop where
  | init : ReachD initState
  | step {s s' : KState} (h : ReachD s) (hs : DStep s s') : ReachD s'

/-- Inductive scheduler-state invariant: the run queue has no duplicate
task, run-queue tasks have a clear sleeping flag, sleeping-table tasks
have it set, and the table holds each task at most once. -/
def Inv (s : KState) : Prop :=
  s.runq.Nodup ∧
  (∀ g ∈ s.runq, s.sleepFlag g = false) ∧
  (∀ g ∈ taskIds s.sleeping, s.sleepFlag g = true) ∧
  (taskIds s.sleeping).Nodup

/-- The invariant claimed by the spec: no task sits in the run queue and
in the sleeping table at once, and a table-resident task has its
sleeping flag set. -/
def NoSimul (s : KState) : Prop :=
  (∀ g ∈ s.runq, g ∉ taskIds s.sleeping) ∧
  (∀ g ∈ taskIds s.sleeping, s.sleepFlag g = true)

instance (s : KState) : Decidable (Inv s) := by
  unfold Inv; infer_instance

instance (s : KState) : Decidable (NoSimul s) := by
  unfold NoSimul; infer_instance

/-! ## Readiness poller (src/offset/net/fd_bsd.py) -/

/-- A kevent as returned by kqueue.control: an identity (descriptor)
and a filter. -/
structure KEvent where
  ident : Nat
  filter : Int
  deriving DecidableEq

/-- select.KQ_FILTER_READ. -/
def KQ_FILTER_READ : Int := -1

/-- select.KQ_FILTER_WRITE. -/
def KQ_FILTER_WRITE : Int := -2

/-- errno.EINTR. -/
def EINTR : Nat := 4

/-- Failures a call into fd_bsd.py can raise. -/
inductive PyErr where
  | nameErr (n : String)
  | osErr (e : Nat)
  | typeErr
  | valueErr
  deriving DecidableEq

/-- Names bound at module level in offset/net/fd_bsd.py: the two imports
(fd_ from util, select from syscall) and the class the module defines.
The module imports neither errno nor sys nor a name syscall, so those
lookups fail at run time. -/
def fdBsdGlobals : List String := ["fd_", "select", "Pollster"]

/-- Python name resolution against the module globals of fd_bsd.py. -/
def nameDefined (n : String) : Bool := fdBsdGlobals.contains n

/-- util.fd_.  Modelled from the spec: util.py is not under src/; fd_
yields the integer descriptor of its argument, here already a
number. -/
def fd_ (n : Nat) : Nat := n

/-- Outcome of one Pollster.waitfd call: a returned (descriptor, mode)
pair together with the remaining event buffer, a raised failure, or
exhaustion of the supplied trace of OS-call results while the loop
still blocks.  Every outcome carries the pollserver lock depth at the
moment waitfd leaves. -/
inductive WaitOutcome where
  | ret (fd : Nat) (mode : Char) (buf : List KEvent) (lock : Nat)
  | raised (e : PyErr) (lock : Nat)
  | blocked (lock : Nat)
  deriving DecidableEq

/-- Pollster.waitfd (fd_bsd.py lines 46-66).  buf is self.events; calls
is the trace of results the successive kq.control invocations deliver
(ok with a list of events, or error with the errno of a select.error);
lock counts how often pollserver.lock() is held.  While the buffer is
empty: lock, run kq.control; on select.error the handler first resolves
the name errno, which fd_bsd.py never imports, so a NameError replaces
both the retry and the re-raise; the finally clause unlocks on every
path.  With a non-empty buffer, pop the oldest event and map its filter
to a mode character. -/
def waitfdLoop : List KEvent → List (Except Nat (List KEvent)) → Nat → WaitOutcome
  | ev :: rest, _, lock =>
      let mode := if ev.filter = KQ_FILTER_READ then 'r' else 'w'
      WaitOutcome.ret (fd_ ev.ident) mode rest lock
  | [], [], lock => WaitOutcome.blocked lock
  | [], c :: cs, lock =>
      match c with
      | Except.ok evs => waitfdLoop evs cs (lock + 1 - 1)
      | Except.error e =>
          if nameDefined "errno" then
            if e = EINTR then waitfdLoop [] cs (lock + 1 - 1)
            else WaitOutcome.raised (PyErr.osErr e) (lock + 1 - 1)
          else WaitOutcome.raised (PyErr.nameErr "errno") (lock + 1 - 1)

/-- Pollster.waitfd entered with the lock not held. -/
def waitfd (buf : List KEvent) (calls : List (Except Nat (List KEvent))) :
    WaitOutcome :=
  waitfdLoop buf calls 0

/-! ## Worker-pool sizing (kernel.py lines 20-23 and 45-52) -/

/-- A Python value as it flows into ThreadPoolExecutor: os.environ holds
strings, DEFAULT_MAX_THREADS is an int. -/
inductive PyVal where
  | int (n : Nat)
  | str (v : String)
  deriving DecidableEq

/-- DEFAULT_MAX_THREADS (kernel.py lines 20-23):
multiprocessing.cpu_count(), or 2 when that raises
NotImplementedError (cpu_count undeterminable, modelled as none). -/
def DEFAULT_MAX_THREADS (cpu_count : Option Nat) : Nat :=
  match cpu_count with
  | some n => n
  | none => 2

/-- Kernel.__init__ (kernel.py lines 45-48): self._max_threads is the
raw environment string when OFFSET_MAX_THREADS is set, otherwise the
integer DEFAULT_MAX_THREADS. -/
def kernelMaxThreads (env : Option String) (cpu_count : Option Nat) : PyVal :=
  match env with
  | some v => PyVal.str v
  | none => PyVal.int (DEFAULT_MAX_THREADS cpu_count)

/-- concurrent.futures.ThreadPoolExecutor(max_workers), CPython 3
semantics: the constructor evaluates max_workers <= 0, which raises
TypeError when max_workers is a str (str and int do not compare), and
ValueError when it is a non-positive int; otherwise the pool is built
with that many threads. -/
def ThreadPoolExecutorNew (max_workers : PyVal) : Except PyErr Nat :=
  match max_workers with
  | PyVal.str _ => Except.error PyErr.typeErr
  | PyVal.int n => if n ≤ 0 then Except.error PyErr.valueErr else Except.ok n

/-! ## Concrete states used by the per-claim witnesses -/

/-- Witness state for the rotation claim: two live runnable tasks, task
1 invoking the loop from the run-queue head. -/
def c1s : KState :=
  { runq := [1, 2], sleeping := [], runCalls := [], sigqueue := [],
    sleepFlag := fun _ => false, alive := fun _ => true, lastTask := 0 }

/-- Witness state for the completion-priority claim: task 1 parked on
future 10, task 2 waiting in the run queue. -/
def c2s : KState :=
  { runq := [2], sleeping := [(10, 1)], runCalls := [], sigqueue := [],
    sleepFlag := fun t => t == 1, alive := fun _ => true, lastTask := 0 }

/-- The state exit_syscall leaves from c2s once future 10 completes
uncancelled with task 1 alive. -/
def c2s' : KState :=
  { runq := [1, 2], sleeping := [], runCalls := [], sigqueue := [],
    sleepFlag := fupd (fun t => t == 1) 1 false,
    alive := fun _ => true, lastTask := 0 }

/-- Witness state for the ready claim: task 1 sleeping, run queue
empty. -/
def c4s : KState :=
  { runq := [], sleeping := [], runCalls := [], sigqueue := [],
    sleepFlag := fun t => t == 1, alive := fun _ => true, lastTask := 0 }

/-- Witness state for the signal-drain claim: SIGTERM buffered ahead of
SIGINT, one runnable task queued. -/
def c6s : KState :=
  { runq := [7], sleeping := [], runCalls := [], sigqueue := [15, 2],
    sleepFlag := fun _ => false, alive := fun _ => true, lastTask := 0 }

/-- Intermediate state of the undisciplined-wake counterexample: task 1
freshly spawned. -/
def c7s1 : KState := newproc initState 1

/-- Task 1 has entered a syscall on future 10: parked, recorded in the
sleeping table. -/
def c7s2 : KState := enter_syscall_submit c7s1 1 10

/-- A bystander then calls ready on the parked task 1: the guard passes
because the flag is set, and task 1 lands in the run queue while its
table entry survives. -/
def c7bad : KState := (ready c7s2 1).1

/-- Intermediate states of the prune-underflow counterexample: task 1
spawned, then pushing itself on _run_calls via run. -/
def c8live : KState := runOp (newproc initState 1) 1

/-- Task 1 has died (its body returned) while its _run_calls entry and
its run-queue entry are still in place. -/
def c8dead : KState := dieOp c8live 1

/-- A schedule pass prunes the dead task from the run-queue head; the
stale _run_calls entry remains with the run queue now empty. -/
def c8bad : KState := { c8dead with runq := [] }

/-- Witness state for the amended prune-safety claim: one live deferred
re-entry, nothing else. -/
def c8w : KState := runOp (newproc initState 1) 1

/-! ## Helper lemmas -/

theorem head?_of_ne_nil {l : List Nat} (h : l ≠ []) :
    l.head? = some (l.headD 0) := by
  cases l with
  | nil => exact absurd rfl h
  | cons a as => rfl

theorem alookup_mem {tbl : List (Nat × Nat)} {f g : Nat}
    (h : alookup tbl f = some g) : g ∈ taskIds tbl := by
  induction tbl with
  | nil => simp [alookup] at h
  | cons p rest ih =>
      obtain ⟨k, v⟩ := p
      by_cases hk : k = f
      · simp [alookup, hk] at h
        simp [taskIds, h]
      · simp [alookup, hk] at h
        simp [taskIds] at ih ⊢
        exact Or.inr (ih h)

theorem aerase_sublist {α : Type} (tbl : List (Nat × α)) (f : Nat) :
    List.Sublist (aerase tbl f) tbl := by
  induction tbl with
  | nil => simp [aerase]
  | cons p rest ih =>
      obtain ⟨k, v⟩ := p
      by_cases hk : k = f
      · simp only [aerase, if_pos hk]
        exact List.sublist_cons_self _ _
      · simp only [aerase, if_neg hk]
        exact ih.cons₂ _

theorem taskIds_aerase_sublist (tbl : List (Nat × Nat)) (f : Nat) :
    List.Sublist (taskIds (aerase tbl f)) (taskIds tbl) :=
  (aerase_sublist tbl f).map Prod.snd

theorem not_mem_taskIds_aerase {tbl : List (Nat × Nat)} {f g : Nat}
    (hnd : (taskIds tbl).Nodup) (h : alookup tbl f = some g) :
    g ∉ taskIds (aerase tbl f) := by
  induction tbl with
  | nil => simp [alookup] at h
  | cons p rest ih =>
      obtain ⟨k, v⟩ := p
      simp only [taskIds, List.map_cons, List.nodup_cons] at hnd
      by_cases hk : k = f
      · simp [alookup, hk] at h
        simp only [aerase, if_pos hk]
        exact h ▸ hnd.1
      · simp [alookup, hk] at h
        have hg : g ∈ taskIds rest := alookup_mem h
        have hgv : g ≠ v := fun he => hnd.1 (he ▸ hg)
        simp only [aerase, if_neg hk, taskIds, List.map_cons,
          List.mem_cons, not_or]
        exact ⟨hgv, ih hnd.2 h⟩

theorem nodup_append_single {l : List Nat} {a : Nat}
    (h : l.Nodup) (ha : a ∉ l) : (l ++ [a]).Nodup := by
  induction l with
  | nil => simp
  | cons b bs ih =>
      rcases List.nodup_cons.mp h with ⟨hb, hbs⟩
      have ha' : a ∉ bs := fun hm => ha (List.mem_cons_of_mem _ hm)
      have hab : b ≠ a := fun he => ha (he ▸ List.mem_cons_self _ _)
      refine List.nodup_cons.mpr ⟨?_, ih hbs ha'⟩
      intro hmem
      rcases List.mem_append.mp hmem with hc | hc
      · exact hb hc
      · exact hab (List.mem_singleton.mp hc)

theorem rotateIfSelf_perm (q : List Nat) (a : Nat) :
    List.Perm (rotateIfSelf q a) q := by
  cases q with
  | nil => exact List.Perm.refl _
  | cons g0 rest =>
      by_cases hg : g0 = a
      · simp only [rotateIfSelf, if_pos hg]
        exact List.perm_append_singleton g0 rest
      · simp [rotateIfSelf, hg]

theorem signal_recv_foldl_le (sigs : List Nat) :
    ∀ l : List Nat, l.length ≤ 5 →
      (List.foldl signal_recv l sigs).length ≤ 5 := by
  induction sigs with
  | nil => intro l h; simpa using h
  | cons a as ih =>
      intro l h
      rw [List.foldl_cons]
      apply ih
      unfold signal_recv
      split
      · rename_i hlt
        simp only [List.length_append, List.length_singleton]
        omega
      · exact h

theorem some_headD_head? {l : List Nat} (h : l ≠ []) :
    some (l.headD 0) = l.head? := by
  cases l with
  | nil => exact absurd rfl h
  | cons a as => rfl

set_option maxRecDepth 8000 in
theorem schedSelect_candidate (s : KState) (gcur : Nat) (hq : s.runq ≠ []) :
    candidateOf (schedSelect s gcur) = (rotateIfSelf s.runq gcur).head? ∧
    (∀ g s', schedSelect s gcur = IterResult.dispatch g s' →
      s'.runq = rotateIfSelf s.runq gcur) := by
  cases hrq : s.runq with
  | nil => exact absurd hrq hq
  | cons g0 rest =>
      constructor
      · simp only [schedSelect, hrq, rotateIfSelf]
        split
        · split
          · simp only [candidateOf]
            exact some_headD_head? (by simp)
          · simp only [candidateOf]
            exact some_headD_head? (by simp)
        · split
          · simp only [candidateOf]
            exact some_headD_head? (by simp)
          · simp only [candidateOf]
            exact some_headD_head? (by simp)
      · intro g s' hdisp
        simp only [schedSelect, hrq] at hdisp
        split at hdisp
        · rename_i hg
          split at hdisp
          · injection hdisp with h1 h2
            subst h2
            simp [rotateIfSelf, hg]
          · exact IterResult.noConfusion hdisp
        · rename_i hg
          split at hdisp
          · injection hdisp with h1 h2
            subst h2
            simp [rotateIfSelf, hg]
          · exact IterResult.noConfusion hdisp

set_option maxRecDepth 8000 in
theorem schedSelect_stateOf (s : KState) (gcur : Nat) (s' : KState)
    (h : stateOf (schedSelect s gcur) = some s') :
    s'.sleeping = s.sleeping ∧ s'.sleepFlag = s.sleepFlag ∧
    s'.alive = s.alive ∧ s'.sigqueue = s.sigqueue ∧
    (s'.runq = s.runq ∨ s'.runq = rotateIfSelf s.runq gcur ∨
      s'.runq = (rotateIfSelf s.runq gcur).tail) := by
  cases hrq : s.runq with
  | cons g0 rest =>
      simp only [schedSelect, hrq] at h
      split at h
      · rename_i hg
        split at h
        · simp only [stateOf, Option.some.injEq] at h
          subst h
          refine ⟨rfl, rfl, rfl, rfl, Or.inr (Or.inl ?_)⟩
          simp [rotateIfSelf, hg]
        · simp only [stateOf, Option.some.injEq] at h
          subst h
          refine ⟨rfl, rfl, rfl, rfl, Or.inr (Or.inr ?_)⟩
          simp [rotateIfSelf, hg]
      · rename_i hg
        split at h
        · simp only [stateOf, Option.some.injEq] at h
          subst h
          refine ⟨rfl, rfl, rfl, rfl, Or.inr (Or.inl ?_)⟩
          simp [rotateIfSelf, hg]
        · simp only [stateOf, Option.some.injEq] at h
          subst h
          refine ⟨rfl, rfl, rfl, rfl, Or.inr (Or.inr ?_)⟩
          simp [rotateIfSelf, hg]
  | nil =>
      simp only [schedSelect, hrq] at h
      split at h
      · simp only [stateOf, Option.some.injEq] at h
        subst h
        exact ⟨rfl, rfl, rfl, rfl, Or.inl hrq⟩
      · split at h
        · split at h
          · simp only [stateOf, Option.some.injEq] at h
            subst h
            exact ⟨rfl, rfl, rfl, rfl, Or.inl rfl⟩
          · simp only [stateOf] at h
            exact Option.noConfusion h
        · simp only [stateOf, Option.some.injEq] at h
          subst h
          exact ⟨rfl, rfl, rfl, rfl, Or.inl hrq⟩

set_option maxRecDepth 8000 in
theorem scheduleIter_stateOf (s : KState) (gcur : Nat) (s' : KState)
    (h : stateOf (scheduleIter s gcur) = some s') :
    s'.sleeping = s.sleeping ∧ s'.sleepFlag = s.sleepFlag ∧
    s'.alive = s.alive ∧ s'.sigqueue = s.sigqueue.tail ∧
    (s'.runq = s.runq ∨ s'.runq = rotateIfSelf s.runq gcur ∨
      s'.runq = (rotateIfSelf s.runq gcur).tail) := by
  cases hq : s.sigqueue with
  | nil =>
      simp only [scheduleIter, hq] at h
      simpa [hq] using schedSelect_stateOf s gcur s' h
  | cons sig rest =>
      simp only [scheduleIter, hq] at h
      split at h
      · simp only [stateOf] at h
        exact Option.noConfusion h
      · have := schedSelect_stateOf { s with sigqueue := rest } gcur s' h
        simpa using this

/-! ## Claim theorems -/

/-- C1: in a pass of the scheduling loop that reaches selection with a
non-empty run queue, the queue is rotated head-to-tail exactly when its
head is the invoking task, the examined candidate is the head of the
(possibly rotated) queue, and a dispatch leaves that rotated queue in
place (kernel.py lines 122-126). -/
theorem schedule_rotate_select (s : KState) (gcur : Nat)
    (hq : s.runq ≠ []) (ht : noTermHead s.sigqueue = true) :
    candidateOf (scheduleIter s gcur) = (rotateIfSelf s.runq gcur).head? ∧
    (s.runq.head? = some gcur →
      rotateIfSelf s.runq gcur = s.runq.tail ++ [gcur]) ∧
    (s.runq.head? ≠ some gcur → rotateIfSelf s.runq gcur = s.runq) ∧
    (∀ g s', scheduleIter s gcur = IterResult.dispatch g s' →
      s'.runq = rotateIfSelf s.runq gcur) := by
  have hrot1 : s.runq.head? = some gcur →
      rotateIfSelf s.runq gcur = s.runq.tail ++ [gcur] := by
    cases s.runq with
    | nil => intro hc; exact absurd hc (by simp)
    | cons g0 rest =>
        intro hc
        have : g0 = gcur := by simpa using hc
        simp [rotateIfSelf, this]
  have hrot2 : s.runq.head? ≠ some gcur → rotateIfSelf s.runq gcur = s.runq := by
    cases s.runq with
    | nil => intro _; rfl
    | cons g0 rest =>
        intro hc
        have : g0 ≠ gcur := by simpa using hc
        simp [rotateIfSelf, this]
  cases hsq : s.sigqueue with
  | nil =>
      have hsel := schedSelect_candidate s gcur hq
      refine ⟨?_, hrot1, hrot2, ?_⟩
      · simpa [scheduleIter, hsq] using hsel.1
      · intro g s' hdisp
        simp only [scheduleIter, hsq] at hdisp
        exact hsel.2 g s' hdisp
  | cons sig rest =>
      have htf : termSig sig = false := by
        simp [noTermHead, hsq] at ht
        exact ht
      have hq2 : ({ s with sigqueue := rest } : KState).runq ≠ [] := hq
      have hsel := schedSelect_candidate { s with sigqueue := rest } gcur hq2
      refine ⟨?_, hrot1, hrot2, ?_⟩
      · simpa [scheduleIter, hsq, htf] using hsel.1
      · intro g s' hdisp
        simp only [scheduleIter, hsq, htf, Bool.false_eq_true,
          if_false] at hdisp
        exact hsel.2 g s' hdisp

/-- C1 witness: with run queue [1, 2] and task 1 invoking the loop, the
candidate is the head of the rotated queue [2, 1], namely task 2. -/
theorem schedule_rotate_select_witness :
    candidateOf (scheduleIter c1s 1) = (rotateIfSelf c1s.runq 1).head? ∧
    candidateOf (scheduleIter c1s 1) = some 2 :=
  ⟨(schedule_rotate_select c1s 1 (by decide) rfl).1, by decide⟩

/-- C6: a pass of the scheduling loop drains at most one buffered
signal (every surviving state carries the tail of the signal queue),
and when the drained head signal is of the quit, int, term class the
pass halts at once with exit status os.EX_IOERR, before any candidate
is selected or switched into (kernel.py lines 113-120). -/
theorem schedule_signal_step (s : KState) (gcur : Nat) :
    (∀ sig rest, s.sigqueue = sig :: rest → termSig sig = true →
      scheduleIter s gcur = IterResult.halt EX_IOERR) ∧
    (∀ s', stateOf (scheduleIter s gcur) = some s' →
      s'.sigqueue = s.sigqueue.tail) := by
  constructor
  · intro sig rest hq hterm
    simp [scheduleIter, hq, hterm]
  · intro s' h
    exact (scheduleIter_stateOf s gcur s' h).2.2.2.1

/-- C6 witness: with SIGTERM (15) at the head of the buffer, the pass
halts with os.EX_IOERR and no task of the run queue is reached. -/
theorem schedule_signal_step_witness :
    scheduleIter c6s 0 = IterResult.halt EX_IOERR :=
  (schedule_signal_step c6s 0).1 15 [2] rfl (by decide)

/-- C2: a completion that was not cancelled and whose task is alive
clears the sleeping flag of the task and pushes it at the run-queue
head, so the very next pass of the scheduling loop, invoked by any
other task, dispatches it ahead of everything that was already
queued (kernel.py lines 170-184 and 122-126). -/
theorem exit_syscall_priority (s s' : KState) (f g gcur : Nat)
    (hpop : exit_syscall s f false = some s')
    (hl : alookup s.sleeping f = some g)
    (ha : s.alive g = true)
    (hg : gcur ≠ g)
    (ht : noTermHead s.sigqueue = true) :
    s'.sleepFlag g = false ∧ s'.runq = g :: s.runq ∧
    dispatchedOf (scheduleIter s' gcur) = some g := by
  unfold exit_syscall at hpop
  rw [hl] at hpop
  simp [ha] at hpop
  subst hpop
  have hgg : ¬ g = gcur := fun he => hg he.symm
  refine ⟨by simp [fupd], rfl, ?_⟩
  cases hsq : s.sigqueue with
  | nil => simp [scheduleIter, hsq, schedSelect, hgg, ha, dispatchedOf]
  | cons sig rest =>
      have htf : termSig sig = false := by
        simp [noTermHead, hsq] at ht
        exact ht
      simp [scheduleIter, hsq, htf, schedSelect, hgg, ha, dispatchedOf]

/-- C2 witness: future 10 completes for the parked task 1 while task 2
waits in the queue; task 1 lands at the head and is the dispatched
candidate of the next pass. -/
theorem exit_syscall_priority_witness :
    c2s'.sleepFlag 1 = false ∧ c2s'.runq = 1 :: c2s.runq ∧
    dispatchedOf (scheduleIter c2s' 0) = some 1 :=
  exit_syscall_priority c2s c2s' 10 1 0 rfl rfl rfl (by decide) rfl

theorem schedSelect_no_underflow (s : KState) (gcur : Nat)
    (h : ∀ t ∈ s.runCalls, s.alive t = true) :
    schedSelect s gcur ≠ IterResult.pruneUnderflow := by
  intro hbad
  cases hrq : s.runq with
  | cons g0 rest =>
      simp only [schedSelect, hrq] at hbad
      split at hbad <;> split at hbad <;> exact IterResult.noConfusion hbad
  | nil =>
      simp only [schedSelect, hrq] at hbad
      split at hbad
      · exact IterResult.noConfusion hbad
      · split at hbad
        · rename_i gnext rcs heq
          split at hbad
          · exact IterResult.noConfusion hbad
          · rename_i halive
            exact halive (h gnext (by rw [heq]; exact List.mem_cons_self _ _))
        · exact IterResult.noConfusion hbad

/-- C8 (amended): a pass of the scheduling loop never reaches the
popleft-on-empty-deque underflow provided every task held on the
deferred re-entry stack is alive: a not-alive candidate then only ever
comes from the run-queue head, where the queue is necessarily non-empty
at the popleft.  A candidate popped from _run_calls is examined with
the run queue empty, so a dead one would underflow (kernel.py lines
122-141). -/
theorem schedule_prune_safe (s : KState) (gcur : Nat)
    (h : ∀ t ∈ s.runCalls, s.alive t = true) :
    scheduleIter s gcur ≠ IterResult.pruneUnderflow := by
  cases hsq : s.sigqueue with
  | nil =>
      intro hbad
      simp only [scheduleIter, hsq] at hbad
      exact schedSelect_no_underflow s gcur h hbad
  | cons sig rest =>
      intro hbad
      simp only [scheduleIter, hsq] at hbad
      split at hbad
      · exact IterResult.noConfusion hbad
      · exact schedSelect_no_underflow { s with sigqueue := rest } gcur h hbad

/-- C8 witness: with one live deferred re-entry and nothing else, the
pass cannot underflow. -/
theorem schedule_prune_safe_witness :
    scheduleIter c8w 0 ≠ IterResult.pruneUnderflow :=
  schedule_prune_safe c8w 0 (by decide)

/-- C8 counterexample: the claim that every reachable pruning moment
finds the run queue non-empty is false.  Task 1 is spawned, pushes
itself on _run_calls through run, dies, is pruned from the run-queue
head by one schedule pass; the next pass pops the stale _run_calls
entry with the run queue empty and its popleft underflows
(IndexError). -/
theorem schedule_prune_underflow_cex :
    ¬ (∀ s : KState, Reach s → ∀ gcur : Nat,
        scheduleIter s gcur ≠ IterResult.pruneUnderflow) := by
  intro hclaim
  have h1 : Reach (newproc initState 1) :=
    Reach.step Reach.init (Step.sNewproc initState 1 (by decide) (by decide))
  have h2 : Reach c8live :=
    Reach.step h1 (Step.sRun (newproc initState 1) 1 (by decide))
  have h3 : Reach c8dead := Reach.step h2 (Step.sDie c8live 1)
  have h4 : Reach c8bad :=
    Reach.step h3 (Step.sSched c8dead c8bad 0 rfl)
  exact hclaim c8bad h4 0 rfl

/-! ### Invariant preservation (claim C7) -/

theorem taskIds_append_single (tbl : List (Nat × Nat)) (f g : Nat) :
    taskIds (tbl ++ [(f, g)]) = taskIds tbl ++ [g] := by
  simp [taskIds]

theorem inv_newproc {s : KState} {g : Nat} (hI : Inv s)
    (h1 : g ∉ s.runq) (h2 : g ∉ taskIds s.sleeping) : Inv (newproc s g) := by
  obtain ⟨hnd, hrf, htf, hti⟩ := hI
  refine ⟨nodup_append_single hnd h1, ?_, ?_, hti⟩
  · intro t ht
    rcases List.mem_append.mp ht with hc | hc
    · have hne : t ≠ g := fun he => h1 (he ▸ hc)
      simpa [newproc, fupd, hne] using hrf t hc
    · simp [newproc, fupd, List.mem_singleton.mp hc]
  · intro t ht
    have hne : t ≠ g := fun he => h2 (he ▸ ht)
    simpa [newproc, fupd, hne] using htf t ht

theorem inv_park {s : KState} (hI : Inv s) (g : Nat) : Inv (park s g) := by
  obtain ⟨hnd, hrf, htf, hti⟩ := hI
  refine ⟨hnd.erase g, ?_, ?_, hti⟩
  · intro t ht
    have h2 := hnd.mem_erase_iff.mp ht
    simpa [park, fupd, h2.1] using hrf t h2.2
  · intro t ht
    by_cases he : t = g
    · simp [park, fupd, he]
    · simpa [park, fupd, he] using htf t ht

theorem inv_ready {s : KState} {g : Nat} (hI : Inv s)
    (h : s.sleepFlag g = true) (hd : g ∉ taskIds s.sleeping) :
    Inv (ready s g).1 := by
  obtain ⟨hnd, hrf, htf, hti⟩ := hI
  have hgq : g ∉ s.runq := fun hm => by
    have hc := hrf g hm
    rw [h] at hc
    exact Bool.noConfusion hc
  have hred : (ready s g).1 =
      { s with sleepFlag := fupd s.sleepFlag g false,
               runq := s.runq ++ [g] } := by
    simp [ready, h]
  rw [hred]
  refine ⟨nodup_append_single hnd hgq, ?_, ?_, hti⟩
  · intro t ht
    rcases List.mem_append.mp ht with hc | hc
    · have hne : t ≠ g := fun he => hgq (he ▸ hc)
      simpa [fupd, hne] using hrf t hc
    · simp [fupd, List.mem_singleton.mp hc]
  · intro t ht
    have hne : t ≠ g := fun he => hd (he ▸ ht)
    simpa [fupd, hne] using htf t ht

theorem inv_enter {s : KState} {g f : Nat} (hI : Inv s)
    (hg : g ∉ taskIds s.sleeping) : Inv (enter_syscall_submit s g f) := by
  obtain ⟨hnd, hrf, htf, hti⟩ := hI
  have hred : enter_syscall_submit s g f =
      { s with sleepFlag := fupd (fupd s.sleepFlag g true) g true,
               sleeping := s.sleeping ++ [(f, g)],
               runq := s.runq.erase g } := rfl
  rw [hred]
  refine ⟨hnd.erase g, ?_, ?_, ?_⟩
  · intro t ht
    have h2 := hnd.mem_erase_iff.mp ht
    simpa [fupd, h2.1] using hrf t h2.2
  · intro t ht
    rw [taskIds_append_single] at ht
    by_cases he : t = g
    · simp [fupd, he]
    · rcases List.mem_append.mp ht with hc | hc
      · simpa [fupd, he] using htf t hc
      · exact absurd (List.mem_singleton.mp hc) he
  · rw [taskIds_append_single]
    exact nodup_append_single hti hg

theorem inv_exit {s s' : KState} {f : Nat} {c : Bool} (hI : Inv s)
    (h : exit_syscall s f c = some s') : Inv s' := by
  obtain ⟨hnd, hrf, htf, hti⟩ := hI
  unfold exit_syscall at h
  cases hl : alookup s.sleeping f with
  | none =>
      rw [hl] at h
      exact Option.noConfusion h
  | some g =>
      rw [hl] at h
      have hsub := taskIds_aerase_sublist s.sleeping f
      have base : Inv { s with sleeping := aerase s.sleeping f } := by
        refine ⟨hnd, hrf, ?_, hti.sublist hsub⟩
        intro t ht
        exact htf t (hsub.subset ht)
      by_cases hc : c
      · simp [hc] at h
        subst h
        exact base
      · by_cases ha : s.alive g = false
        · simp [hc, ha] at h
          subst h
          exact base
        · simp [hc, ha] at h
          subst h
          have hgid : g ∈ taskIds s.sleeping := alookup_mem hl
          have hgflag : s.sleepFlag g = true := htf g hgid
          have hgq : g ∉ s.runq := fun hm => by
            have hcq := hrf g hm
            rw [hgflag] at hcq
            exact Bool.noConfusion hcq
          refine ⟨List.nodup_cons.mpr ⟨hgq, hnd⟩, ?_, ?_, hti.sublist hsub⟩
          · intro t ht
            rcases List.mem_cons.mp ht with he | hm
            · simp [fupd, he]
            · have hne : t ≠ g := fun hh => hgq (hh ▸ hm)
              simpa [fupd, hne] using hrf t hm
          · intro t ht
            have hne : t ≠ g :=
              fun hh => not_mem_taskIds_aerase hti hl (hh ▸ ht)
            have hmm : t ∈ taskIds s.sleeping := hsub.subset ht
            simpa [fupd, hne] using htf t hmm

theorem inv_sched {s s' : KState} {g : Nat} (hI : Inv s)
    (h : stateOf (scheduleIter s g) = some s') : Inv s' := by
  obtain ⟨hf1, hf2, _, _, hq⟩ := scheduleIter_stateOf s g s' h
  obtain ⟨hnd, hrf, htf, hti⟩ := hI
  have hperm := rotateIfSelf_perm s.runq g
  have hrotnd : (rotateIfSelf s.runq g).Nodup := hperm.symm.nodup hnd
  refine ⟨?_, ?_, ?_, ?_⟩
  · rcases hq with hq | hq | hq
    · rw [hq]; exact hnd
    · rw [hq]; exact hrotnd
    · rw [hq]; exact hrotnd.sublist (List.tail_sublist _)
  · intro t ht
    rw [hf2]
    apply hrf
    rcases hq with hq | hq | hq
    · rwa [hq] at ht
    · rw [hq] at ht
      exact hperm.mem_iff.mp ht
    · rw [hq] at ht
      exact hperm.mem_iff.mp ((List.tail_sublist _).subset ht)
  · intro t ht
    rw [hf2]
    apply htf
    rwa [hf1] at ht
  · rw [hf1]
    exact hti

theorem reachD_inv {s : KState} (h : ReachD s) : Inv s := by
  induction h with
  | init =>
      refine ⟨List.nodup_nil, ?_, ?_, List.nodup_nil⟩ <;>
        intro t ht <;> simp [initState, taskIds] at ht
  | step hr hs ih =>
      cases hs with
      | dNewproc g h1 h2 => exact inv_newproc ih h1 h2
      | dPark g => exact inv_park ih g
      | dReady g h hd => exact inv_ready ih h hd
      | dEnter g f hg => exact inv_enter ih hg
      | dExit s' f c he => exact inv_exit ih he
      | dRun g hg => exact ih
      | dDie g => exact ih
      | dSig n => exact ih
      | dSched s' g hsc => exact inv_sched ih hsc

/-- C7 (amended): in every kernel state reachable through the public
operations under the wake discipline, by which ready is never invoked
on a task held in the sleeping table (a task parked by enter_syscall is
woken only by its completion callback), no task sits in the run queue
and in the sleeping table at once, and every table-resident task has
its sleeping flag set. -/
theorem run_sleep_disjoint (s : KState) (h : ReachD s) : NoSimul s := by
  obtain ⟨hnd, hrf, htf, hti⟩ := reachD_inv h
  refine ⟨?_, htf⟩
  intro g hg hmem
  have h1 := hrf g hg
  have h2 := htf g hmem
  rw [h1] at h2
  exact Bool.noConfusion h2

/-- C7 witness: the state after spawning task 1 satisfies the
invariant. -/
theorem run_sleep_disjoint_witness : NoSimul (newproc initState 1) :=
  run_sleep_disjoint _
    (ReachD.step ReachD.init (DStep.dNewproc initState 1 (by decide) (by decide)))

/-- C7 counterexample: without the wake discipline the claimed
invariant is false for reachable states.  Task 1 is spawned, parks
itself in the sleeping table through enter_syscall on future 10, and a
bystander then calls ready on it: the guard passes because the flag is
set, so task 1 is appended to the run queue while its table entry
survives, putting it in both structures with its flag clear. -/
theorem run_sleep_disjoint_cex :
    ¬ (∀ s : KState, Reach s → NoSimul s) := by
  intro hclaim
  have h1 : Reach c7s1 :=
    Reach.step Reach.init (Step.sNewproc initState 1 (by decide) (by decide))
  have h2 : Reach c7s2 :=
    Reach.step h1 (Step.sEnter c7s1 1 10 (by decide))
  have h3 : Reach c7bad :=
    Reach.step h2 (Step.sReady c7s2 1 (by decide))
  exact absurd (hclaim c7bad h3) (by decide)

/-- C3: for every offloaded call made through enter_syscall, when the
calling task resumes, a failure raised by the worker-pool execution of
the function is re-raised in the calling context, and otherwise the
result value of the worker is returned (kernel.py lines 166-168). -/
theorem enter_syscall_result (ε α : Type) :
    (∀ e : ε, enter_syscall_resume (futOf (FutOutcome.raised e : FutOutcome ε α)) =
      Except.error e) ∧
    (∀ v : α, enter_syscall_resume (futOf (FutOutcome.returned v : FutOutcome ε α)) =
      Except.ok v) :=
  ⟨fun _ => rfl, fun _ => rfl⟩

/-- C4: ready raises a KernelError exactly when the sleeping flag of g
is clear; on that error path the scheduler state is returned untouched;
when g is sleeping, ready clears the flag, appends g at the run-queue
tail and raises nothing (kernel.py lines 102-108). -/
theorem ready_protocol (s : KState) (g : Nat) :
    ((ready s g).2 = some KernelError.badStatus ↔ s.sleepFlag g = false) ∧
    (s.sleepFlag g = false → (ready s g).1 = s) ∧
    (s.sleepFlag g = true →
      (ready s g).1.sleepFlag g = false ∧
      (ready s g).1.runq = s.runq ++ [g] ∧
      (ready s g).2 = none) := by
  cases h : s.sleepFlag g with
  | false =>
      refine ⟨?_, fun _ => ?_, fun hc => ?_⟩
      · simp [ready, h]
      · simp [ready, h]
      · exact Bool.noConfusion hc
  | true =>
      refine ⟨?_, fun hc => ?_, fun _ => ?_⟩
      · simp [ready, h]
      · exact Bool.noConfusion hc
      · refine ⟨?_, ?_, ?_⟩
        · simp [ready, h, fupd]
        · simp [ready, h]
        · simp [ready, h]

/-- C4 witness: readying the sleeping task 1 of c4s succeeds, clears
its flag and appends it at the tail. -/
theorem ready_protocol_witness :
    (ready c4s 1).1.sleepFlag 1 = false ∧
    (ready c4s 1).1.runq = c4s.runq ++ [1] ∧
    (ready c4s 1).2 = none :=
  (ready_protocol c4s 1).2.2 rfl

/-- C5: starting from the empty SIGQUEUE, any burst of signals recorded
through signal_recv leaves at most 5 buffered entries; a signal is
appended while fewer than 5 are buffered and silently dropped once 5
are (kernel.py lines 70-72). -/
theorem signal_recv_bound (sigs l : List Nat) (sig : Nat) :
    (List.foldl signal_recv [] sigs).length ≤ 5 ∧
    (l.length < 5 → signal_recv l sig = l ++ [sig]) ∧
    (5 ≤ l.length → signal_recv l sig = l) := by
  refine ⟨signal_recv_foldl_le sigs [] (by simp), fun h => ?_, fun h => ?_⟩
  · simp [signal_recv, h]
  · simp [signal_recv, Nat.not_lt.mpr h]

/-- C5 witness: ten rapid SIGINT deliveries leave at most 5 buffered
entries, and a signal arriving at an empty queue is appended. -/
theorem signal_recv_bound_witness :
    (List.foldl signal_recv [] [2, 2, 2, 2, 2, 2, 2, 2, 2, 2]).length ≤ 5 ∧
    signal_recv [] 9 = [] ++ [9] :=
  ⟨(signal_recv_bound [2, 2, 2, 2, 2, 2, 2, 2, 2, 2] [] 9).1,
   (signal_recv_bound [] [] 9).2.1 (by decide)⟩

/-- C9 (code-bug evidence): with an empty Poll Event Buffer, any
select.error raised by the blocking kq.control call, the interrupted
EINTR case included, leaves waitfd raising NameError instead of
retrying or propagating the OS error, because fd_bsd.py never imports
errno; the finally clause still restores the lock depth the call was
entered with (fd_bsd.py lines 46-66). -/
theorem waitfd_oserror_nameerror (e : Nat)
    (calls : List (Except Nat (List KEvent))) (lock : Nat) :
    waitfdLoop [] (Except.error e :: calls) lock =
      WaitOutcome.raised (PyErr.nameErr "errno") lock := rfl

/-- C10 (code-bug evidence): with OFFSET_MAX_THREADS set, Kernel
__init__ hands the raw environment string to ThreadPoolExecutor, whose
construction raises TypeError instead of succeeding; with the variable
unset the count is the cpu parallelism, or 2 when that is
undeterminable, and construction succeeds (kernel.py lines 20-23 and
45-52). -/
theorem kernel_max_threads_env :
    kernelMaxThreads (some "4") (some 8) = PyVal.str "4" ∧
    ThreadPoolExecutorNew (kernelMaxThreads (some "4") (some 8)) =
      Except.error PyErr.typeErr ∧
    ThreadPoolExecutorNew (kernelMaxThreads none (some 8)) = Except.ok 8 ∧
    ThreadPoolExecutorNew (kernelMaxThreads none none) = Except.ok 2 :=
  ⟨rfl, rfl, rfl, rfl⟩

end Offset
